import Mathlib

/-!
# Verification of the Notes API core (src/main.py)

A shallow embedding of the FastAPI notes service: user records, note
records, the dual-credential authenticator (`get_current_user`), token
issuance (`create_access_token`), and the CRUD endpoints, translated
directly from `src/main.py`. SQLAlchemy queries over the `users` and
`notes` tables are modelled as list operations over an explicit database
state; `query(...).filter(col == v).first()` becomes `List.find?`.
The opaque password hasher and the random API-key generator are passed
in as parameters (the source treats them as external capabilities).
Timestamps are natural numbers (seconds); `datetime.utcnow()` at call
time is a `now` parameter.
-/

namespace NotesApi

/-- The `Role` enum (src/main.py lines 32-34): a closed two-variant type
whose `value` is the string stored in the database's `role` column. -/
inductive Role where
  | admin
  | user
deriving DecidableEq, Repr

/-- `Role.ADMIN.value = "admin"`, `Role.USER.value = "user"`. -/
def Role.value : Role → String
  | .admin => "admin"
  | .user => "user"

/-- A row of the `users` table (`UserDB`, src/main.py lines 37-46).
The `role` column is a plain string (the code compares it with
`Role.ADMIN.value` by string equality); `api_key` is nullable. -/
structure UserRec where
  id : Nat
  username : String
  full_name : String
  email : String
  hashed_password : String
  role : String
  is_active : Bool
  api_key : Option String
deriving DecidableEq, Repr

/-- A row of the `notes` table (`NoteDB`, src/main.py lines 48-54). -/
structure NoteRec where
  id : Nat
  title : String
  content : String
  owner : String
  is_private : Bool
deriving DecidableEq, Repr

/-- The persistent store: the `users` and `notes` tables. (The `logs`
table is omitted: no verified claim concerns audit-log contents.) -/
structure DBState where
  users : List UserRec
  notes : List NoteRec
deriving DecidableEq, Repr

/-- An `HTTPException` as raised by the handlers: a status code and a
detail string. -/
structure HTTPError where
  status_code : Nat
  detail : String
deriving DecidableEq, Repr

/-- `SECRET_KEY = "secret"` (src/main.py line 22). -/
def SECRET_KEY : String := "secret"

/-- `ALGORITHM = "HS256"` (src/main.py line 23). -/
def ALGORITHM : String := "HS256"

/-- `ACCESS_TOKEN_EXPIRE_MINUTES = 30` (src/main.py line 24). -/
def ACCESS_TOKEN_EXPIRE_MINUTES : Nat := 30

/-- A JWT claim set as built by `create_access_token`: an optional
`sub` claim and an absolute `exp` timestamp (seconds). -/
structure TokenPayload where
  sub : Option String
  exp : Nat
deriving DecidableEq, Repr

/-- A bearer token as seen by `pyjwt.decode`: either a well-formed JWT
signed with some key and algorithm, or an unparseable string. -/
inductive Token where
  | signed (key : String) (alg : String) (payload : TokenPayload)
  | malformed
deriving DecidableEq, Repr

/-- Outcome of `pyjwt.decode`: the payload, `ExpiredSignatureError`,
or `InvalidTokenError`. -/
inductive DecodeResult where
  | ok (payload : TokenPayload)
  | expiredSignature
  | invalidToken
deriving DecidableEq, Repr

/-- `pyjwt.decode(token, key, algorithms=[alg])` at current time `now`:
rejects a malformed token or a signature/algorithm mismatch with
`InvalidTokenError`, raises `ExpiredSignatureError` when the embedded
expiry is ≤ the current time (PyJWT expires a token exactly when
`exp <= now`, i.e. current time ≥ embedded expiry), and otherwise
returns the claim set. -/
def jwtDecode (token : Token) (key : String) (alg : String) (now : Nat) : DecodeResult :=
  match token with
  | .malformed => .invalidToken
  | .signed k a payload =>
    if k = key ∧ a = alg then
      if payload.exp ≤ now then .expiredSignature else .ok payload
    else .invalidToken

/-- `create_access_token(data, expires_delta)` (src/main.py lines
119-127): embeds the claims plus `exp = now + expires_delta`, defaulting
to 15 minutes (900 seconds), and signs with `SECRET_KEY`/`ALGORITHM`. -/
def create_access_token (data_sub : Option String) (now : Nat)
    (expires_delta : Option Nat) : Token :=
  let expire := match expires_delta with
    | some d => now + d
    | none => now + 15 * 60
  .signed SECRET_KEY ALGORITHM ⟨data_sub, expire⟩

/-- `get_current_user(token, api_key, db)` (src/main.py lines 140-178):
if a bearer token is present it is decoded (expired → 401 "Token has
expired"; invalid → 401; missing `sub` → 401); the subject is then
looked up by username (absent or inactive → 401); the API key is never
consulted. Only when no bearer token is present is the API key tried:
the user is looked up by exact key match (absent or inactive → 403
"Could not validate API key"). With neither credential: 401. -/
def get_current_user (token : Option Token) (api_key : Option String)
    (db : DBState) (now : Nat) : Except HTTPError UserRec :=
  match token with
  | some t =>
    match jwtDecode t SECRET_KEY ALGORITHM now with
    | .ok payload =>
      match payload.sub with
      | none => .error ⟨401, "Invalid authentication credentials"⟩
      | some username =>
        match db.users.find? (fun u => u.username == username) with
        | some user =>
          if user.is_active then .ok user
          else .error ⟨401, "Invalid authentication credentials"⟩
        | none => .error ⟨401, "Invalid authentication credentials"⟩
    | .expiredSignature => .error ⟨401, "Token has expired"⟩
    | .invalidToken => .error ⟨401, "Invalid authentication credentials"⟩
  | none =>
    match api_key with
    | some key =>
      match db.users.find? (fun u => u.api_key == some key) with
      | some user =>
        if user.is_active then .ok user
        else .error ⟨403, "Could not validate API key"⟩
      | none => .error ⟨403, "Could not validate API key"⟩
    | none => .error ⟨401, "No authentication credentials provided"⟩

/-- The `UserCreate` request body (src/main.py lines 77-82). -/
structure UserCreate where
  username : String
  full_name : String
  email : String
  password : String
  role : Role
deriving DecidableEq, Repr

/-- The pydantic `User` response model (src/main.py lines 68-75): the
representation serialized to external callers by every endpoint with
`response_model=User`. It has a `hashed_password` field. -/
structure UserView where
  username : String
  full_name : String
  email : String
  hashed_password : String
  role : String
  is_active : Bool
  api_key : Option String
deriving DecidableEq, Repr

/-- Serialization of a `UserDB` row through the `User` response model:
every field, the password hash included, is copied into the view. -/
def userResponse (u : UserRec) : UserView :=
  ⟨u.username, u.full_name, u.email, u.hashed_password, u.role,
    u.is_active, u.api_key⟩

/-- `register_user(user, db)` (src/main.py lines 226-243): if a user
with the same username exists, 400 "User already exists" is raised
before any write, leaving the state unchanged; otherwise the password
is hashed, an API key generated, and a new active user row inserted.
`hash` is the opaque `get_password_hash` capability, `api_key` the
value produced by `generate_api_key()`, and `new_id` the primary key
the database assigns on insert. -/
def register_user (hash : String → String) (api_key : String) (new_id : Nat)
    (user : UserCreate) (db : DBState) : DBState × Except HTTPError UserRec :=
  match db.users.find? (fun u => u.username == user.username) with
  | some _ => (db, .error ⟨400, "User already exists"⟩)
  | none =>
    let new_user : UserRec :=
      { id := new_id
        username := user.username
        full_name := user.full_name
        email := user.email
        hashed_password := hash user.password
        role := user.role.value
        is_active := true
        api_key := some api_key }
    ({ db with users := db.users ++ [new_user] }, .ok new_user)

/-- The `NoteCreate` request body (src/main.py lines 87-90). -/
structure NoteCreate where
  title : String
  content : String
  is_private : Bool
deriving DecidableEq, Repr

/-- The `NoteUpdate` partial body (src/main.py lines 92-95): each field
is optional; `none` models a field absent from the request (pydantic's
`exclude_unset`). -/
structure NoteUpdate where
  title : Option String := none
  content : Option String := none
  is_private : Option Bool := none
deriving DecidableEq, Repr

/-- The `setattr` loop of `update_note` (src/main.py lines 299-301):
each supplied field overwrites the row's field; unset fields are left
alone. No branch writes `owner` or `id`. -/
def applyNoteUpdate (nu : NoteUpdate) (note : NoteRec) : NoteRec :=
  let note := match nu.title with
    | some t => { note with title := t }
    | none => note
  let note := match nu.content with
    | some c => { note with content := c }
    | none => note
  match nu.is_private with
  | some p => { note with is_private := p }
  | none => note

/-- `create_note(note, current_user, db)` (src/main.py lines 259-270):
unconditionally inserts a new note whose `owner` is the authenticated
user's username. `new_id` is the primary key assigned on insert. -/
def create_note (new_id : Nat) (note : NoteCreate) (current_user : UserRec)
    (db : DBState) : DBState × NoteRec :=
  let new_note : NoteRec :=
    { id := new_id
      title := note.title
      content := note.content
      owner := current_user.username
      is_private := note.is_private }
  ({ db with notes := db.notes ++ [new_note] }, new_note)

/-- `get_notes(current_user, db)` (src/main.py lines 272-279): lists
every note satisfying
`not is_private or owner == current_user.username or role == "admin"`. -/
def get_notes (current_user : UserRec) (db : DBState) : List NoteRec :=
  db.notes.filter (fun note =>
    !note.is_private || note.owner == current_user.username
      || current_user.role == Role.admin.value)

/-- `delete_note(note_id, current_user, db)` (src/main.py lines
281-290): looks the note up by id — absence is 404 "Note not found"
before the ownership check is reached; a non-owner non-admin on an
existing note gets 403; otherwise the row is deleted and returned. -/
def delete_note (note_id : Nat) (current_user : UserRec) (db : DBState) :
    DBState × Except HTTPError NoteRec :=
  match db.notes.find? (fun n => n.id == note_id) with
  | none => (db, .error ⟨404, "Note not found"⟩)
  | some note =>
    if note.owner ≠ current_user.username ∧ current_user.role ≠ Role.admin.value then
      (db, .error ⟨403, "Not enough permissions"⟩)
    else
      ({ db with notes := db.notes.eraseP (fun n => n.id == note_id) },
        .ok note)

/-- `update_note(note_id, note_update, current_user, db)` (src/main.py
lines 292-304): same 404-before-403 order as `delete_note`; on success
the supplied fields overwrite the row in place. -/
def update_note (note_id : Nat) (nu : NoteUpdate) (current_user : UserRec)
    (db : DBState) : DBState × Except HTTPError NoteRec :=
  match db.notes.find? (fun n => n.id == note_id) with
  | none => (db, .error ⟨404, "Note not found"⟩)
  | some note =>
    if note.owner ≠ current_user.username ∧ current_user.role ≠ Role.admin.value then
      (db, .error ⟨403, "Not enough permissions"⟩)
    else
      let note' := applyNoteUpdate nu note
      ({ db with notes := db.notes.map (fun n => if n.id == note_id then note' else n) },
        .ok note')

/-- `deactivate_user(user_id, current_user, db)` (src/main.py lines
313-323): a non-admin caller gets 403 before the target is looked up;
then the target is found by id (absent → 404) and its `is_active` flag
cleared in place. -/
def deactivate_user (user_id : Nat) (current_user : UserRec) (db : DBState) :
    DBState × Except HTTPError UserRec :=
  if current_user.role ≠ Role.admin.value then
    (db, .error ⟨403, "Not enough permissions"⟩)
  else
    match db.users.find? (fun u => u.id == user_id) with
    | none => (db, .error ⟨404, "User not found"⟩)
    | some user =>
      let user' := { user with is_active := false }
      ({ db with users := db.users.map (fun u => if u.id == user_id then user' else u) },
        .ok user')

/-- `reset_password(user_id, new_password, current_user, db)`
(src/main.py lines 325-335): admin check first (403), then lookup by id
(404), then the stored hash is replaced by the hash of the new
password. -/
def reset_password (hash : String → String) (user_id : Nat)
    (new_password : String) (current_user : UserRec) (db : DBState) :
    DBState × Except HTTPError UserRec :=
  if current_user.role ≠ Role.admin.value then
    (db, .error ⟨403, "Not enough permissions"⟩)
  else
    match db.users.find? (fun u => u.id == user_id) with
    | none => (db, .error ⟨404, "User not found"⟩)
    | some user =>
      let user' := { user with hashed_password := hash new_password }
      ({ db with users := db.users.map (fun u => if u.id == user_id then user' else u) },
        .ok user')

/-- `update_user_role(user_id, user_update_role, current_user, db)`
(src/main.py lines 337-347): admin check first (403), then lookup by id
(404), then the `role` column is set to the new role's string value. -/
def update_user_role (user_id : Nat) (new_role : Role)
    (current_user : UserRec) (db : DBState) :
    DBState × Except HTTPError UserRec :=
  if current_user.role ≠ Role.admin.value then
    (db, .error ⟨403, "Not enough permissions"⟩)
  else
    match db.users.find? (fun u => u.id == user_id) with
    | none => (db, .error ⟨404, "User not found"⟩)
    | some user =>
      let user' := { user with role := new_role.value }
      ({ db with users := db.users.map (fun u => if u.id == user_id then user' else u) },
        .ok user')

/-- `get_all_users(current_user, db)` (src/main.py lines 349-354):
admin-only listing of every user row. -/
def get_all_users (current_user : UserRec) (db : DBState) :
    Except HTTPError (List UserRec) :=
  if current_user.role ≠ Role.admin.value then
    .error ⟨403, "Not enough permissions"⟩
  else
    .ok db.users

/-- `delete_user(user_name, current_user, db)` (src/main.py lines
356-365): admin check first (403), then lookup by username (404), then
that row — the first with the given username — is deleted. The `notes`
table is untouched. -/
def delete_user (user_name : String) (current_user : UserRec)
    (db : DBState) : DBState × Except HTTPError UserRec :=
  if current_user.role ≠ Role.admin.value then
    (db, .error ⟨403, "Not enough permissions"⟩)
  else
    match db.users.find? (fun u => u.username == user_name) with
    | none => (db, .error ⟨404, "User not found"⟩)
    | some user =>
      ({ db with users := db.users.eraseP (fun u => u.username == user_name) },
        .ok user)

/-! ## Helper lemmas -/

instance {ε α : Type} [DecidableEq ε] [DecidableEq α] :
    DecidableEq (Except ε α) := fun x y =>
  match x, y with
  | .ok a, .ok b =>
    if h : a = b then isTrue (by rw [h])
    else isFalse (by intro hc; cases hc; exact h rfl)
  | .error a, .error b =>
    if h : a = b then isTrue (by rw [h])
    else isFalse (by intro hc; cases hc; exact h rfl)
  | .ok _, .error _ => isFalse (by intro hc; cases hc)
  | .error _, .ok _ => isFalse (by intro hc; cases hc)

/-- `find?` returns exactly `a` when `a` is in the list, satisfies the
predicate, and is the only element of the list satisfying it. -/
theorem find?_eq_of_mem_unique {α : Type} {l : List α} {p : α → Bool} {a : α}
    (hmem : a ∈ l) (hpa : p a = true)
    (huniq : ∀ b ∈ l, p b = true → b = a) :
    l.find? p = some a := by
  induction l with
  | nil => cases hmem
  | cons x xs ih =>
    by_cases hx : p x = true
    · have hxa : x = a := huniq x (List.mem_cons_self x xs) hx
      rw [List.find?_cons_of_pos _ hx, hxa]
    · have hax : a ∈ xs := by
        cases hmem with
        | head => exact absurd hpa hx
        | tail _ h => exact h
      rw [List.find?_cons_of_neg _ (by simpa using hx)]
      exact ih hax (fun b hb hpb => huniq b (List.mem_cons_of_mem _ hb) hpb)

/-- The `setattr` loop of `update_note` never writes `owner`. -/
theorem applyNoteUpdate_owner (nu : NoteUpdate) (note : NoteRec) :
    (applyNoteUpdate nu note).owner = note.owner := by
  rcases nu with ⟨t, c, p⟩
  cases t <;> cases c <;> cases p <;> rfl

/-- The `setattr` loop of `update_note` never writes `id`. -/
theorem applyNoteUpdate_id (nu : NoteUpdate) (note : NoteRec) :
    (applyNoteUpdate nu note).id = note.id := by
  rcases nu with ⟨t, c, p⟩
  cases t <;> cases c <;> cases p <;> rfl

/-! ## C3: bearer-token precedence over the API key -/

/-- C3: a request carrying both a bearer token and an API key resolves
to exactly the same result (identity or failure) as the same request
carrying only the bearer token — the API key is ignored whenever a
bearer token is present. -/
theorem bearer_precedence_over_api_key (tok : Token) (key : String)
    (db : DBState) (now : Nat) :
    get_current_user (some tok) (some key) db now
      = get_current_user (some tok) none db now := rfl

/-! ## C4: the note list is exactly the visibility-filtered set -/

/-- C4: a note is in the result of `get_notes` for identity `cu` iff it
is in the store and satisfies
`NOT is_private OR owner = cu.username OR cu.role = admin` —
set equality in both directions. -/
theorem get_notes_mem_iff (cu : UserRec) (db : DBState) (n : NoteRec) :
    n ∈ get_notes cu db ↔
      n ∈ db.notes ∧
        (n.is_private = false ∨ n.owner = cu.username
          ∨ cu.role = Role.admin.value) := by
  simp [get_notes, List.mem_filter, Role.value, Bool.not_eq_true', or_assoc]

/-! ## C9: note ownership is immutable under update -/

/-- C9: a successful `update_note` preserves every note's `owner` (and
`id`): each note of the post-state agrees on `id` and `owner` with a
note of the pre-state; and `create_note` is the only writer of `owner`,
binding it to the creating identity's username. -/
theorem owner_immutable_under_update (note_id : Nat) (nu : NoteUpdate)
    (cu : UserRec) (db db' : DBState) (note' : NoteRec)
    (h : update_note note_id nu cu db = (db', Except.ok note')) :
    (∀ n' ∈ db'.notes, ∃ n ∈ db.notes, n.id = n'.id ∧ n.owner = n'.owner) ∧
    (∀ new_id nc u st, ((create_note new_id nc u st).2).owner = u.username) := by
  constructor
  · cases hfind : db.notes.find? (fun n => n.id == note_id) with
    | none =>
      simp only [update_note, hfind] at h
      exact Except.noConfusion (congrArg Prod.snd h)
    | some note =>
      simp only [update_note, hfind] at h
      by_cases hperm : note.owner ≠ cu.username ∧ cu.role ≠ Role.admin.value
      · rw [if_pos hperm] at h
        exact Except.noConfusion (congrArg Prod.snd h)
      · rw [if_neg hperm] at h
        rw [Prod.mk.injEq] at h
        obtain ⟨hdb, -⟩ := h
        have hnotes : db'.notes = db.notes.map
            (fun n => if n.id == note_id then applyNoteUpdate nu note else n) := by
          rw [← hdb]
        intro n' hn'
        rw [hnotes] at hn'
        simp only [List.mem_map] at hn'
        obtain ⟨n, hn, hfn⟩ := hn'
        by_cases hid : (n.id == note_id) = true
        · rw [if_pos hid] at hfn
          refine ⟨note, List.mem_of_find?_eq_some hfind, ?_, ?_⟩
          · rw [← hfn, applyNoteUpdate_id]
          · rw [← hfn, applyNoteUpdate_owner]
        · rw [if_neg hid] at hfn
          exact ⟨n, hn, by rw [hfn], by rw [hfn]⟩
  · intro new_id nc u st
    rfl

/-- Concrete store for the C9 witness: one note owned by alice. -/
def c9db : DBState := ⟨[], [⟨1, "t", "c", "alice", true⟩]⟩

/-- Alice's user record for the C9 witness. -/
def c9alice : UserRec := ⟨1, "alice", "Alice", "a@e.com", "h", "user", true, some "k"⟩

/-- Witness for C9: alice updates her note's title; the theorem applies
and its hypothesis holds by computation. -/
theorem owner_immutable_under_update_witness :
    ∃ n ∈ c9db.notes, n.id = 1 ∧ n.owner = "alice" := by
  have h := owner_immutable_under_update 1 ⟨some "new", none, none⟩ c9alice c9db
    ⟨[], [⟨1, "new", "c", "alice", true⟩]⟩ ⟨1, "new", "c", "alice", true⟩ (by rfl)
  exact h.1 ⟨1, "new", "c", "alice", true⟩ (by simp)

/-! ## C2: deactivation invalidates both credential paths -/

/-- C2: whenever user `U` is stored with `is_active = false`, an
unexpired token signed with the process secret whose subject is `U`'s
username fails resolution with 401, and `U`'s API key fails resolution
with 403; moreover a successful `deactivate_user` stores exactly such an
inactive record. The uniqueness hypotheses are the `users` table's
unique constraints on `username` and `api_key`. -/
theorem inactive_user_resolution_fails (db : DBState) (U : UserRec)
    (key : String) (now exp : Nat)
    (hmem : U ∈ db.users)
    (hname : ∀ V ∈ db.users, V.username = U.username → V = U)
    (hkeyU : U.api_key = some key)
    (hkey : ∀ V ∈ db.users, V.api_key = some key → V = U)
    (hinactive : U.is_active = false)
    (hexp : now < exp) :
    get_current_user (some (Token.signed SECRET_KEY ALGORITHM ⟨some U.username, exp⟩))
        none db now = .error ⟨401, "Invalid authentication credentials"⟩ ∧
    get_current_user none (some key) db now
      = .error ⟨403, "Could not validate API key"⟩ ∧
    (∀ uid cu db1 db2 U', deactivate_user uid cu db1 = (db2, Except.ok U') →
       U'.is_active = false ∧ U' ∈ db2.users) := by
  have hfindName : db.users.find? (fun u => u.username == U.username) = some U :=
    find?_eq_of_mem_unique hmem (by simp)
      (fun b hb hpb => hname b hb (by simpa using hpb))
  have hfindKey : db.users.find? (fun u => u.api_key == some key) = some U :=
    find?_eq_of_mem_unique hmem (by simp [hkeyU])
      (fun b hb hpb => hkey b hb (by simpa using hpb))
  refine ⟨?_, ?_, ?_⟩
  · simp [get_current_user, jwtDecode, Nat.not_le.mpr hexp, hfindName, hinactive]
  · simp [get_current_user, hfindKey, hinactive]
  · intro uid cu db1 db2 U' h
    by_cases hrole : cu.role ≠ Role.admin.value
    · simp only [deactivate_user, if_pos hrole] at h
      exact Except.noConfusion (congrArg Prod.snd h)
    · cases hfind : db1.users.find? (fun u => u.id == uid) with
      | none =>
        simp only [deactivate_user, if_neg hrole, hfind] at h
        exact Except.noConfusion (congrArg Prod.snd h)
      | some user =>
        simp only [deactivate_user, if_neg hrole, hfind] at h
        rw [Prod.mk.injEq] at h
        obtain ⟨hdb, hu⟩ := h
        have hu' : U' = { user with is_active := false } :=
          ((Except.ok.injEq _ _).mp hu).symm
        have hid : (user.id == uid) = true := by
          simpa using List.find?_some hfind
        constructor
        · rw [hu']
        · have husers : db2.users = db1.users.map
              (fun u => if u.id == uid then { user with is_active := false } else u) := by
            rw [← hdb]
          rw [husers, hu']
          exact List.mem_map.mpr
            ⟨user, List.mem_of_find?_eq_some hfind, by rw [if_pos hid]⟩

/-- Store for the C2 witness: bob is deactivated. -/
def c2db : DBState :=
  ⟨[⟨1, "bob", "Bob", "b@e.com", "hb", "user", false, some "bobkey"⟩], []⟩

/-- Bob's (inactive) record for the C2 witness. -/
def c2bob : UserRec := ⟨1, "bob", "Bob", "b@e.com", "hb", "user", false, some "bobkey"⟩

/-- Witness for C2: with bob inactive in a one-user store, both an
unexpired signed token for bob and bob's API key fail to resolve. -/
theorem inactive_user_resolution_fails_witness :
    get_current_user (some (Token.signed SECRET_KEY ALGORITHM ⟨some c2bob.username, 100⟩))
        none c2db 5 = .error ⟨401, "Invalid authentication credentials"⟩ ∧
    get_current_user none (some "bobkey") c2db 5
      = .error ⟨403, "Could not validate API key"⟩ := by
  have h := inactive_user_resolution_fails c2db c2bob "bobkey" 5 100
    (by decide) (by decide) (by decide) (by decide) (by decide) (by decide)
  exact ⟨h.1, h.2.1⟩

/-! ## C5: 404-before-403 for notes, 403-before-404 for users -/

/-- C5: for note update/delete a nonexistent id yields 404 for every
caller, admin or not, and a 403 is only produced when the note exists;
for every admin-only user-management operation a non-admin caller gets
403 regardless of the target's existence, and a 404 is only produced
for an admin caller. -/
theorem error_order_notes_vs_users (note_id user_id : Nat) (nu : NoteUpdate)
    (uname npw : String) (hash : String → String) (new_role : Role)
    (cu : UserRec) (db : DBState)
    (hnote : db.notes.find? (fun n => n.id == note_id) = none)
    (hrole : cu.role ≠ Role.admin.value) :
    (delete_note note_id cu db).2 = .error ⟨404, "Note not found"⟩ ∧
    (update_note note_id nu cu db).2 = .error ⟨404, "Note not found"⟩ ∧
    (deactivate_user user_id cu db).2 = .error ⟨403, "Not enough permissions"⟩ ∧
    (reset_password hash user_id npw cu db).2 = .error ⟨403, "Not enough permissions"⟩ ∧
    (update_user_role user_id new_role cu db).2 = .error ⟨403, "Not enough permissions"⟩ ∧
    get_all_users cu db = .error ⟨403, "Not enough permissions"⟩ ∧
    (delete_user uname cu db).2 = .error ⟨403, "Not enough permissions"⟩ ∧
    (∀ nid cu' db' e, (delete_note nid cu' db').2 = .error e →
       e.status_code = 403 → ∃ n ∈ db'.notes, n.id = nid) ∧
    (∀ uid cu' db' e, (deactivate_user uid cu' db').2 = .error e →
       e.status_code = 404 → cu'.role = Role.admin.value) := by
  refine ⟨?_, ?_, ?_, ?_, ?_, ?_, ?_, ?_, ?_⟩
  · simp [delete_note, hnote]
  · simp [update_note, hnote]
  · simp [deactivate_user, if_pos hrole]
  · simp [reset_password, if_pos hrole]
  · simp [update_user_role, if_pos hrole]
  · simp [get_all_users, if_pos hrole]
  · simp [delete_user, if_pos hrole]
  · intro nid cu' db' e he h403
    cases hfind : db'.notes.find? (fun n => n.id == nid) with
    | none =>
      simp only [delete_note, hfind] at he
      rw [(Except.error.injEq _ _).mp he.symm] at h403
      exact absurd h403 (by decide)
    | some note =>
      exact ⟨note, List.mem_of_find?_eq_some hfind, by simpa using List.find?_some hfind⟩
  · intro uid cu' db' e he h404
    by_cases hr : cu'.role ≠ Role.admin.value
    · simp only [deactivate_user, if_pos hr] at he
      rw [(Except.error.injEq _ _).mp he.symm] at h404
      exact absurd h404 (by decide)
    · exact not_ne_iff.mp hr

/-- Non-admin caller for the C5 witness. -/
def c5carol : UserRec := ⟨3, "carol", "Carol", "c@e.com", "hc", "user", true, some "ck"⟩

/-- Witness for C5: carol (non-admin) on an empty store gets 404 for a
missing note but 403 from a user-management operation. -/
theorem error_order_notes_vs_users_witness :
    (delete_note 7 c5carol ⟨[], []⟩).2 = .error ⟨404, "Note not found"⟩ ∧
    (deactivate_user 7 c5carol ⟨[], []⟩).2 = .error ⟨403, "Not enough permissions"⟩ := by
  have h := error_order_notes_vs_users 7 7 {} "bob" "np" (fun s => s) Role.user
    c5carol ⟨[], []⟩ (by decide) (by decide)
  exact ⟨h.1, h.2.2.1⟩

/-! ## C6: bearer failures are 401, API-key failures are 403 -/

/-- C6: every failure of credential resolution on the bearer-token path
(malformed token, expired token, missing subject, unknown or inactive
subject) carries status 401, while every failure on the API-key path
(no bearer token present) is exactly 403 "Could not validate API key",
produced both when no user matches the key and when the matching user
is inactive. -/
theorem auth_failure_kinds (db : DBState) (now : Nat) :
    (∀ tok key e, get_current_user (some tok) key db now = .error e →
       e.status_code = 401) ∧
    (∀ key e, get_current_user none (some key) db now = .error e →
       e = ⟨403, "Could not validate API key"⟩) ∧
    (∀ key, db.users.find? (fun u => u.api_key == some key) = none →
       get_current_user none (some key) db now
         = .error ⟨403, "Could not validate API key"⟩) ∧
    (∀ key U, db.users.find? (fun u => u.api_key == some key) = some U →
       U.is_active = false →
       get_current_user none (some key) db now
         = .error ⟨403, "Could not validate API key"⟩) := by
  refine ⟨?_, ?_, ?_, ?_⟩
  · intro tok key e he
    simp only [get_current_user] at he
    cases hdec : jwtDecode tok SECRET_KEY ALGORITHM now with
    | ok payload =>
      simp only [hdec] at he
      cases hsub : payload.sub with
      | none =>
        simp only [hsub] at he
        rw [← (Except.error.injEq _ _).mp he]
      | some uname =>
        simp only [hsub] at he
        cases hfind : db.users.find? (fun u => u.username == uname) with
        | none =>
          simp only [hfind] at he
          rw [← (Except.error.injEq _ _).mp he]
        | some user =>
          simp only [hfind] at he
          by_cases hact : user.is_active = true
          · rw [if_pos hact] at he
            exact Except.noConfusion he
          · rw [if_neg hact] at he
            rw [← (Except.error.injEq _ _).mp he]
    | expiredSignature =>
      simp only [hdec] at he
      rw [← (Except.error.injEq _ _).mp he]
    | invalidToken =>
      simp only [hdec] at he
      rw [← (Except.error.injEq _ _).mp he]
  · intro key e he
    simp only [get_current_user] at he
    cases hfind : db.users.find? (fun u => u.api_key == some key) with
    | none =>
      simp only [hfind] at he
      exact ((Except.error.injEq _ _).mp he).symm
    | some user =>
      simp only [hfind] at he
      by_cases hact : user.is_active = true
      · rw [if_pos hact] at he
        exact Except.noConfusion he
      · rw [if_neg hact] at he
        exact ((Except.error.injEq _ _).mp he).symm
  · intro key hfind
    simp [get_current_user, hfind]
  · intro key U hfind hact
    simp [get_current_user, hfind, hact]

/-- Witness for C6: in a store whose only user is inactive bob, an
unknown API key fails with 403 and a malformed bearer token fails with
status 401. -/
theorem auth_failure_kinds_witness :
    get_current_user none (some "nosuchkey") c2db 5
      = .error ⟨403, "Could not validate API key"⟩ ∧
    (403 : Nat) ≠ 401 := by
  have h := auth_failure_kinds c2db 5
  exact ⟨h.2.2.1 "nosuchkey" (by decide), by decide⟩

/-! ## C7: duplicate registration is rejected without a state change -/

/-- C7: when some stored user already has the requested username,
`register_user` returns 400 "User already exists" and the resulting
state is exactly the input state — every existing record (hash,
api_key, role, is_active included) is untouched and no record is
added. -/
theorem duplicate_register_rejected (hash : String → String)
    (api_key : String) (new_id : Nat) (uc : UserCreate) (db : DBState)
    (U : UserRec) (hmem : U ∈ db.users) (hname : U.username = uc.username) :
    register_user hash api_key new_id uc db
      = (db, .error ⟨400, "User already exists"⟩) := by
  cases hfind : db.users.find? (fun u => u.username == uc.username) with
  | none =>
    have := List.find?_eq_none.mp hfind U hmem
    simp [hname] at this
  | some V =>
    simp only [register_user, hfind]

/-- Witness for C7: registering a second "bob" against the one-user
store fails with 400 and leaves the store as it was. -/
theorem duplicate_register_rejected_witness :
    register_user (fun s => String.append "h" s) "freshkey" 9
        ⟨"bob", "Bobby", "b2@e.com", "pw2", Role.admin⟩ c2db
      = (c2db, .error ⟨400, "User already exists"⟩) :=
  duplicate_register_rejected (fun s => String.append "h" s) "freshkey" 9
    ⟨"bob", "Bobby", "b2@e.com", "pw2", Role.admin⟩ c2db c2bob
    (by decide) (by decide)

/-! ## C8: tokens validate strictly before expiry, fail at and after -/

/-- C8: a token issued for subject `sub` at time `t` with ttl `ttl`
decodes to its claim set (subject `sub`, expiry `t + ttl`) at every
time strictly before `t + ttl` and fails with `ExpiredSignatureError`
at every time at or after `t + ttl`; correspondingly, resolution via
`get_current_user` reports 401 "Token has expired" exactly from the
expiry instant on, never strictly before it. -/
theorem token_validity_window (sub : String) (t ttl now : Nat) (db : DBState) :
    (now < t + ttl →
      jwtDecode (create_access_token (some sub) t (some ttl)) SECRET_KEY ALGORITHM now
        = .ok ⟨some sub, t + ttl⟩) ∧
    (t + ttl ≤ now →
      jwtDecode (create_access_token (some sub) t (some ttl)) SECRET_KEY ALGORITHM now
        = .expiredSignature) ∧
    (t + ttl ≤ now →
      get_current_user (some (create_access_token (some sub) t (some ttl))) none db now
        = .error ⟨401, "Token has expired"⟩) ∧
    (now < t + ttl →
      get_current_user (some (create_access_token (some sub) t (some ttl))) none db now
        ≠ .error ⟨401, "Token has expired"⟩) := by
  refine ⟨?_, ?_, ?_, ?_⟩
  · intro hlt
    simp [jwtDecode, create_access_token, Nat.not_le.mpr hlt]
  · intro hge
    simp [jwtDecode, create_access_token, hge]
  · intro hge
    simp [get_current_user, jwtDecode, create_access_token, hge]
  · intro hlt
    have hdec : jwtDecode (create_access_token (some sub) t (some ttl))
        SECRET_KEY ALGORITHM now = .ok ⟨some sub, t + ttl⟩ := by
      simp [jwtDecode, create_access_token, Nat.not_le.mpr hlt]
    simp only [get_current_user, hdec]
    cases hfind : db.users.find? (fun u => u.username == sub) with
    | none => simp [hfind]
    | some user =>
      by_cases hact : user.is_active = true
      · simp [hfind, hact]
      · simp [hfind, hact]

/-- Witness for C8: a token issued at time 0 with ttl 60 decodes at
time 59 and is expired at time 60, with the resolver reporting "Token
has expired" only at the latter. -/
theorem token_validity_window_witness :
    jwtDecode (create_access_token (some "alice") 0 (some 60)) SECRET_KEY ALGORITHM 59
      = .ok ⟨some "alice", 60⟩ ∧
    jwtDecode (create_access_token (some "alice") 0 (some 60)) SECRET_KEY ALGORITHM 60
      = .expiredSignature ∧
    get_current_user (some (create_access_token (some "alice") 0 (some 60))) none
        ⟨[], []⟩ 60 = .error ⟨401, "Token has expired"⟩ := by
  refine ⟨(token_validity_window "alice" 0 60 59 ⟨[], []⟩).1 (by decide),
    (token_validity_window "alice" 0 60 60 ⟨[], []⟩).2.1 (by decide),
    (token_validity_window "alice" 0 60 60 ⟨[], []⟩).2.2.1 (by decide)⟩

/-! ## C10: deleting a user leaves the note store untouched -/

/-- C10: a successful `delete_user` leaves the `notes` table exactly as
it was (every note of the deleted username persists with all fields),
an admin's subsequent note listing still returns every stored note, no
user record other than the removed ones survives deletion spuriously,
and a later successful registration under the same username yields an
identity whose username equals the `owner` string of those notes, so
the ownership comparison used by update/delete succeeds for it. -/
theorem delete_user_preserves_notes (uname : String) (cu : UserRec)
    (db db' : DBState) (U : UserRec)
    (h : delete_user uname cu db = (db', Except.ok U)) :
    db'.notes = db.notes ∧
    (∀ A : UserRec, A.role = Role.admin.value → get_notes A db' = db.notes) ∧
    (∀ V ∈ db'.users, V ∈ db.users) ∧
    (∀ hash k nid uc db2 db3 V, uc.username = uname →
       register_user hash k nid uc db2 = (db3, Except.ok V) →
       ∀ n ∈ db.notes, n.owner = uname → n.owner = V.username) := by
  by_cases hrole : cu.role ≠ Role.admin.value
  · simp only [delete_user, if_pos hrole] at h
    exact Except.noConfusion (congrArg Prod.snd h)
  · cases hfind : db.users.find? (fun u => u.username == uname) with
    | none =>
      simp only [delete_user, if_neg hrole, hfind] at h
      exact Except.noConfusion (congrArg Prod.snd h)
    | some user =>
      simp only [delete_user, if_neg hrole, hfind] at h
      rw [Prod.mk.injEq] at h
      obtain ⟨hdb, -⟩ := h
      have hnotes : db'.notes = db.notes := by rw [← hdb]
      have husers : db'.users = db.users.eraseP (fun u => u.username == uname) := by
        rw [← hdb]
      refine ⟨hnotes, ?_, ?_, ?_⟩
      · intro A hA
        unfold get_notes
        rw [hnotes]
        apply List.filter_eq_self.mpr
        intro n _
        simp [hA, Role.value]
      · intro V hV
        rw [husers] at hV
        exact (List.eraseP_sublist _).subset hV
      · intro hash k nid uc db2 db3 V hu hreg n _ hown
        cases hfind2 : db2.users.find? (fun u => u.username == uc.username) with
        | some W =>
          simp only [register_user, hfind2] at hreg
          exact Except.noConfusion (congrArg Prod.snd hreg)
        | none =>
          simp only [register_user, hfind2] at hreg
          rw [Prod.mk.injEq] at hreg
          obtain ⟨-, hok⟩ := hreg
          have hV := (Except.ok.injEq _ _).mp hok
          rw [← hV]
          show n.owner = uc.username
          rw [hown, hu]

/-- Admin record for the C10 witness. -/
def c10admin : UserRec := ⟨2, "root", "Root", "r@e.com", "hr", "admin", true, some "rk"⟩

/-- Store for the C10 witness: bob (inactive) plus the admin, and one
note owned by bob. -/
def c10db : DBState :=
  ⟨[⟨1, "bob", "Bob", "b@e.com", "hb", "user", false, some "bobkey"⟩, c10admin],
   [⟨1, "t", "c", "bob", true⟩]⟩

/-- Witness for C10: the admin deletes bob; bob's note survives
unchanged and is still listed for the admin. -/
theorem delete_user_preserves_notes_witness :
    (delete_user "bob" c10admin c10db).1.notes = c10db.notes ∧
    get_notes c10admin (delete_user "bob" c10admin c10db).1 = c10db.notes := by
  have h := delete_user_preserves_notes "bob" c10admin c10db
    ⟨[c10admin], [⟨1, "t", "c", "bob", true⟩]⟩
    ⟨1, "bob", "Bob", "b@e.com", "hb", "user", false, some "bobkey"⟩ (by rfl)
  exact ⟨h.1, h.2.1 c10admin (by decide)⟩

/-! ## C1: the `User` response model exposes the password hash -/

/-- Hasher for the C1 counterexample (stands in for the opaque bcrypt
capability). -/
def c1hash : String → String := fun s => String.append "bcrypt-of-" s

/-- Registration request for the C1 counterexample. -/
def c1request : UserCreate := ⟨"alice", "Alice", "alice@e.com", "pw1", Role.user⟩

/-- The run of `register_user` for the C1 counterexample: alice
registers against an empty store. -/
def c1result : DBState × Except HTTPError UserRec :=
  register_user c1hash "key123" 1 c1request ⟨[], []⟩

/-- C1 counterexample: registering alice against an empty store returns
a representation whose serialization through the `User` response model
carries the stored password hash — the hash of the submitted password —
so the claim that the returned output never contains the user's
password hash is false at this input. -/
theorem register_response_contains_hash :
    (c1result.2).map (fun u => (userResponse u).hashed_password)
      = Except.ok (c1hash "pw1") ∧
    ¬ (∀ u, c1result.2 = Except.ok u →
        (userResponse u).hashed_password ≠ u.hashed_password) := by
  constructor
  · rfl
  · intro hclaim
    exact hclaim ⟨1, "alice", "Alice", "alice@e.com", c1hash "pw1", "user",
      true, some "key123"⟩ (by rfl) rfl

/-- C1 amended: every operation that returns a User representation
(register, user list, deactivate, reset-password, change-role,
delete-by-username) serializes it through the `User` response model,
whose `hashed_password` field carries the stored password hash — so the
hash IS contained in the returned output, equal to the stored (for
register and reset-password: freshly computed) hash. -/
theorem user_views_contain_password_hash (hash : String → String)
    (api_key npw uname : String) (new_id uid : Nat) (role : Role)
    (uc : UserCreate) (cu : UserRec) (db : DBState) :
    (∀ db' u, register_user hash api_key new_id uc db = (db', Except.ok u) →
       (userResponse u).hashed_password = hash uc.password) ∧
    (∀ us, get_all_users cu db = Except.ok us →
       us.map (fun u => (userResponse u).hashed_password)
         = db.users.map UserRec.hashed_password) ∧
    (∀ db' u, deactivate_user uid cu db = (db', Except.ok u) →
       (userResponse u).hashed_password = u.hashed_password) ∧
    (∀ db' u, reset_password hash uid npw cu db = (db', Except.ok u) →
       (userResponse u).hashed_password = hash npw) ∧
    (∀ db' u, update_user_role uid role cu db = (db', Except.ok u) →
       (userResponse u).hashed_password = u.hashed_password) ∧
    (∀ db' u, delete_user uname cu db = (db', Except.ok u) →
       (userResponse u).hashed_password = u.hashed_password) := by
  refine ⟨?_, ?_, ?_, ?_, ?_, ?_⟩
  · intro db' u h
    cases hfind : db.users.find? (fun v => v.username == uc.username) with
    | some W =>
      simp only [register_user, hfind] at h
      exact Except.noConfusion (congrArg Prod.snd h)
    | none =>
      simp only [register_user, hfind] at h
      rw [Prod.mk.injEq] at h
      obtain ⟨-, hok⟩ := h
      rw [← (Except.ok.injEq _ _).mp hok]
      rfl
  · intro us h
    by_cases hrole : cu.role ≠ Role.admin.value
    · simp only [get_all_users, if_pos hrole] at h
      exact Except.noConfusion h
    · simp only [get_all_users, if_neg hrole] at h
      rw [← (Except.ok.injEq _ _).mp h]
      rfl
  · intro db' u _
    rfl
  · intro db' u h
    by_cases hrole : cu.role ≠ Role.admin.value
    · simp only [reset_password, if_pos hrole] at h
      exact Except.noConfusion (congrArg Prod.snd h)
    · cases hfind : db.users.find? (fun v => v.id == uid) with
      | none =>
        simp only [reset_password, if_neg hrole, hfind] at h
        exact Except.noConfusion (congrArg Prod.snd h)
      | some user =>
        simp only [reset_password, if_neg hrole, hfind] at h
        rw [Prod.mk.injEq] at h
        obtain ⟨-, hok⟩ := h
        rw [← (Except.ok.injEq _ _).mp hok]
        rfl
  · intro db' u _
    rfl
  · intro db' u _
    rfl

/-- Witness for C1 (amended): alice's registration response carries the
freshly computed hash, and the admin's user listing of `c10db` carries
both stored hashes. -/
theorem user_views_contain_password_hash_witness :
    (userResponse ⟨1, "alice", "Alice", "alice@e.com", c1hash "pw1", "user",
        true, some "key123"⟩).hashed_password = c1hash "pw1" ∧
    ((get_all_users c10admin c10db).map
        (fun us => us.map (fun u => (userResponse u).hashed_password)))
      = Except.ok ["hb", "hr"] := by
  constructor
  · exact (user_views_contain_password_hash c1hash "key123" "np" "x" 1 1
      Role.user c1request c10admin ⟨[], []⟩).1
      { users := [⟨1, "alice", "Alice", "alice@e.com", c1hash "pw1", "user",
          true, some "key123"⟩], notes := [] }
      ⟨1, "alice", "Alice", "alice@e.com", c1hash "pw1", "user", true, some "key123"⟩
      (by rfl)
  · have h := (user_views_contain_password_hash c1hash "key123" "np" "x" 1 1
      Role.user c1request c10admin c10db).2.1 c10db.users (by rfl)
    show Except.ok (c10db.users.map (fun u => (userResponse u).hashed_password))
      = Except.ok ["hb", "hr"]
    rw [h]
    rfl

end NotesApi
